import Mathlib

/-!
Verification of the aiWebsiteGenerator backend.

The backend exists in three variants: `src/server/server.js` (OpenRouter HTTP
adapter), the hardened Gemini variant (`src/unnamed/part_003`) and an older
Gemini variant (`src/unnamed/part_002`).  The definitions below are a shallow
embedding of the string-processing helpers (`stripFences`, `ensureFullDoc`,
`escapeHtmlAttr`, `toKebab`), of the `/api/generate` handler with its model
fallback loop, of the OpenRouter adapter result handling, of the hardened
variant of the finalizer and extractor, and of the base64 download URL.

JavaScript strings are modelled as Lean `String`/`List Char`; `s.length` in
JavaScript counts UTF-16 code units, modelled by `jsLength`.  Regular
expression tests used by the code are compiled by hand into the equivalent
deterministic scanners (each one is noted at its definition).  The network is
abstracted: one provider attempt is an `Attempt` value (the adapter either
threw an error with a message, or produced a text).
-/

/-- Character class of the JavaScript `\s` regex class and of `String.prototype.trim`
(whitespace plus line terminators, including the Unicode space separators). -/
def isJsWs (c : Char) : Bool :=
  c = ' ' || c = '\t' || c = '\n' || c = '\r' || c.toNat = 11 || c.toNat = 12 ||
  c.toNat = 160 || c.toNat = 5760 || (8192 ≤ c.toNat && c.toNat ≤ 8202) ||
  c.toNat = 8232 || c.toNat = 8233 || c.toNat = 8239 || c.toNat = 8287 ||
  c.toNat = 12288 || c.toNat = 65279

/-- JavaScript `s.trim()` on the character list: drop `\s` characters from both ends. -/
def jsTrimL (l : List Char) : List Char :=
  ((l.dropWhile isJsWs).reverse.dropWhile isJsWs).reverse

/-- JavaScript `s.trim()`. -/
def jsTrimS (s : String) : String := String.mk (jsTrimL s.data)

/-- JavaScript `s.length`: number of UTF-16 code units (astral code points count twice). -/
def jsLength (s : String) : Nat :=
  (s.data.map (fun c => if 65536 ≤ c.toNat then 2 else 1)).sum

/-- `needle` occurs at the head of the list. -/
def startsWithSeg : List Char → List Char → Bool
  | [], _ => true
  | _ :: _, [] => false
  | a :: as, b :: bs => a = b && startsWithSeg as bs

/-- `needle` occurs contiguously somewhere in the list. -/
def hasSeg (needle : List Char) : List Char → Bool
  | [] => startsWithSeg needle []
  | c :: rest => startsWithSeg needle (c :: rest) || hasSeg needle rest

/-- `server.js` `stripFences` step `replace(/^```(html)?\s*/i, "")`: if the string
starts with three backticks, remove them, then remove an optional `html` tag
(case-insensitively) and any following whitespace.  The group `(html)?` and `\s*`
are both greedy and `h` is not in `\s`, so the regex is this deterministic scan. -/
def dropLeadingFence (l : List Char) : List Char :=
  match l with
  | '`' :: '`' :: '`' :: rest =>
    let rest2 := match rest with
      | c1 :: c2 :: c3 :: c4 :: tl =>
        if c1.toLower = 'h' ∧ c2.toLower = 't' ∧ c3.toLower = 'm' ∧ c4.toLower = 'l'
        then tl else rest
      | _ => rest
    rest2.dropWhile isJsWs
  | _ => l

/-- `server.js` `stripFences` step `replace(/```$/i, "")`: remove three backticks at
the very end of the string (without `/m`, `$` anchors only at end of input). -/
def dropTrailingFence (l : List Char) : List Char :=
  match l.reverse with
  | '`' :: '`' :: '`' :: rest => rest.reverse
  | _ => l

/-- `server.js` lines 19-24:
`stripFences = s => s.trim().replace(/^```(html)?\s*/i,"").replace(/```$/i,"").trim()`. -/
def stripFences (s : String) : String :=
  String.mk (jsTrimL (dropTrailingFence (dropLeadingFence (jsTrimL s.data))))

/-- The tail of the regex `<\s*html[\s>]` after the whitespace: `html` followed by a
whitespace character or `>`, case-insensitively. -/
def htmlWordAt : List Char → Bool
  | c1 :: c2 :: c3 :: c4 :: c5 :: _ =>
    c1.toLower = 'h' && c2.toLower = 't' && c3.toLower = 'm' && c4.toLower = 'l' &&
    (isJsWs c5 || c5 = '>')
  | _ => false

/-- After a `<`: skip `\s*`, then require `html[\s>]`.  `h` is not a whitespace
character, so the greedy `\s*` is exactly this skipping loop. -/
def afterLtSkip : List Char → Bool
  | [] => false
  | c :: rest => if isJsWs c then afterLtSkip rest else htmlWordAt (c :: rest)

/-- `/<\s*html[\s>]/i.test(html)`: some position starts a match. -/
def hasHtmlTagL : List Char → Bool
  | [] => false
  | c :: rest => (c = '<' && afterLtSkip rest) || hasHtmlTagL rest

/-- The literal searched for by `/<!doctype html>/i.test(html)`. -/
def doctypeLine : String := "<!doctype html>"

/-- `/<!doctype html>/i.test(html)`: the needle is ASCII, so the `/i` test is
substring search in the lowercased string. -/
def hasDoctypeL (l : List Char) : Bool :=
  hasSeg doctypeLine.data (l.map Char.toLower)

/-- The `hasHtml` test of `ensureFullDoc`:
`/<\s*html[\s>]/i.test(html) || /<!doctype html>/i.test(html)`. -/
def hasHtmlB (l : List Char) : Bool := hasHtmlTagL l || hasDoctypeL l

/-- The single-quote character, written by code point to keep sources plain. -/
def singleQuote : Char := Char.ofNat 39

/-- The character map of `escapeHtmlAttr` (part_003 line 55-56) and of the inline
`safeTitle` replace in `server.js` lines 33-43: ampersand, angle brackets,
double quote and single quote to their entities. -/
def escapeChar (c : Char) : List Char :=
  if c = '&' then "&amp;".data
  else if c = '<' then "&lt;".data
  else if c = '>' then "&gt;".data
  else if c = '"' then "&quot;".data
  else if c = singleQuote then "&#39;".data
  else [c]

/-- The global replace of the five special characters by their entities. -/
def escapeHtmlAttr (s : String) : String := String.mk (s.data.flatMap escapeChar)

/-- Model of the JavaScript values that can sit in a request `spec` field.
Arbitrary objects are collapsed to the payload-free `vObj` (only their
truthiness and `String(x)` image matter to the backend).  `vNum` carries an
integer; the floating/NaN corners of JS numbers are not needed by any claim. -/
inductive JsVal where
  | vUndefined
  | vNull
  | vBool (b : Bool)
  | vNum (n : Int)
  | vStr (s : String)
  | vArr (xs : List JsVal)
  | vObj

/-- JavaScript truthiness of a `JsVal` (what `if (x)` and `!x` test). -/
def truthy : JsVal → Bool
  | .vUndefined => false
  | .vNull => false
  | .vBool b => b
  | .vNum n => n ≠ 0
  | .vStr s => s ≠ ""
  | .vArr _ => true
  | .vObj => true

/-- JavaScript `a || b`. -/
def jsOr (a b : JsVal) : JsVal := if truthy a then a else b

mutual
/-- JavaScript `String(x)` / `x.toString()`. -/
def jsToString : JsVal → String
  | .vUndefined => "undefined"
  | .vNull => "null"
  | .vBool b => if b then "true" else "false"
  | .vNum n => toString n
  | .vStr s => s
  | .vArr xs => jsArrJoin xs
  | .vObj => "[object Object]"

/-- `Array.prototype.toString` joins with commas. -/
def jsArrJoin : List JsVal → String
  | [] => ""
  | [x] => jsArrElem x
  | x :: xs => jsArrElem x ++ "," ++ jsArrJoin xs

/-- Inside `Array.prototype.join`, `null` and `undefined` render as the empty string. -/
def jsArrElem : JsVal → String
  | .vUndefined => ""
  | .vNull => ""
  | .vBool b => if b then "true" else "false"
  | .vNum n => toString n
  | .vStr s => s
  | .vArr xs => jsArrJoin xs
  | .vObj => "[object Object]"
end

/-- The optional `spec.seo` object of the hardened variant (part_003). -/
structure SeoObj where
  title : JsVal
  description : JsVal

/-- The user-supplied `spec` object of a `/api/generate` request.  `seo` is
`Option` because the hardened variant reads it with `spec.seo?.`; fields the
request leaves out are `JsVal.vUndefined` (resp. `none`). -/
structure SpecObj where
  projectName : JsVal := .vUndefined
  brief : JsVal := .vUndefined
  primaryColor : JsVal := .vUndefined
  style : JsVal := .vUndefined
  tone : JsVal := .vUndefined
  pages : JsVal := .vUndefined
  seo : Option SeoObj := none
  canonical : JsVal := .vUndefined

/-- `server.js` line 32: `(spec.projectName || "Website").toString()`. -/
def titleString (spec : SpecObj) : String :=
  jsToString (jsOr spec.projectName (JsVal.vStr "Website"))

/-- Head of both document shells up to the interpolated title, exactly the
template literal of `server.js` lines 45-50 and part_003 lines 73-78 (both
templates are character-identical up to `<title>`). -/
def shellHeadRest : String :=
  "\n<html lang=\"en\">\n<head>\n<meta charset=\"utf-8\"/>\n<meta name=\"viewport\" content=\"width=device-width,initial-scale=1\"/>\n<title>"

/-- The full shell head, doctype line included. -/
def shellHead : String := doctypeLine ++ shellHeadRest

/-- Middle of the `server.js` shell between the title and the body. -/
def shellMid : String := "</title>\n</head>\n<body>\n"

/-- Tail of the `server.js` shell after the body. -/
def shellTail : String := "\n</body>\n</html>"

/-- `server.js` lines 26-56 `ensureFullDoc`: return the input unchanged when it
already looks like a document, otherwise wrap it in the shell with the escaped
title. -/
def ensureFullDoc (html : String) (spec : SpecObj) : String :=
  if hasHtmlB html.data then html
  else shellHead ++ escapeHtmlAttr (titleString spec) ++ shellMid ++ html ++ shellTail

/-- Character class `[_\s]` of `toKebab`. -/
def isKebabWs (c : Char) : Bool := c = '_' || isJsWs c

/-- Global replace of runs matched by `p` with a single `r` character
(`replace(/X+/g, "r")`).  The flag remembers whether a run is already open. -/
def collapseRunsAux (p : Char → Bool) (r : Char) : Bool → List Char → List Char
  | _, [] => []
  | inRun, c :: rest =>
    if p c then
      (if inRun then collapseRunsAux p r true rest else r :: collapseRunsAux p r true rest)
    else c :: collapseRunsAux p r false rest

/-- `replace(/X+/g, "r")` starting outside a run. -/
def collapseRuns (p : Char → Bool) (r : Char) (l : List Char) : List Char :=
  collapseRunsAux p r false l

/-- Character class `[a-z0-9-]` kept by `replace(/[^a-z0-9-]+/g, "")`. -/
def isSlugChar (c : Char) : Bool :=
  ('a' ≤ c && c ≤ 'z') || ('0' ≤ c && c ≤ '9') || c = '-'

/-- One step of the anchored global `replace(/^-|-$/g, "")`: `^-` can only match
position 0, so it removes at most one leading hyphen. -/
def dropLeadingHyphen : List Char → List Char
  | '-' :: rest => rest
  | l => l

/-- `replace(/^-|-$/g, "")`: one leading and one trailing hyphen removed. -/
def stripEdgeHyphens (l : List Char) : List Char :=
  ((dropLeadingHyphen l).reverse |> dropLeadingHyphen).reverse

/-- part_003 lines 58-66 `toKebab`: trim, lowercase, replace `[_\s]` runs by a
hyphen, delete characters outside `[a-z0-9-]`, collapse hyphen runs, strip one
leading and one trailing hyphen (ASCII lowering; non-ASCII letters are deleted
by the `[^a-z0-9-]` filter in either reading). -/
def toKebab (s : String) : String :=
  String.mk
    (stripEdgeHyphens
      (collapseRuns (fun c => c = '-') '-'
        (List.filter isSlugChar
          (collapseRuns isKebabWs '-'
            ((jsTrimL s.data).map Char.toLower)))))

/-- part_003 lines 157-159: `safe.pages`, the slugified page list
`Array.isArray(spec.pages) ? spec.pages.map(p => toKebab(String(p))).filter(Boolean) : []`. -/
def slugPages (pages : JsVal) : List String :=
  match pages with
  | .vArr xs => (xs.map (fun p => toKebab (jsToString p))).filter (fun s => s ≠ "")
  | _ => []

/-- part_003 line 163: `if (!safe.pages.includes("home")) safe.pages.unshift("home")`. -/
def normalizePages (pages : JsVal) : List String :=
  if (slugPages pages).contains "home" then slugPages pages
  else "home" :: slugPages pages

/-- Two adjacent hyphens occur somewhere in the list (negation of "collapsed
hyphens"). -/
def hasDoubleHyphen : List Char → Bool
  | [] => false
  | [_] => false
  | a :: b :: rest => (a = '-' && b = '-') || hasDoubleHyphen (b :: rest)

/-- Hexadecimal digit for the `\u00XX` escapes of `JSON.stringify`. -/
def hexDigit (n : Nat) : Char :=
  if n < 10 then Char.ofNat (48 + n) else Char.ofNat (87 + n)

/-- `JSON.stringify` escaping of one character inside a string literal. -/
def jsonEscapeChar (c : Char) : List Char :=
  if c = '"' then ['\\', '"']
  else if c = '\\' then ['\\', '\\']
  else if c = '\n' then ['\\', 'n']
  else if c = '\r' then ['\\', 'r']
  else if c = '\t' then ['\\', 't']
  else if c.toNat = 8 then ['\\', 'b']
  else if c.toNat = 12 then ['\\', 'f']
  else if c.toNat < 32 then
    ['\\', 'u', '0', '0', hexDigit (c.toNat / 16), hexDigit (c.toNat % 16)]
  else [c]

mutual
/-- `JSON.stringify` of one value; `none` models JavaScript `undefined`, whose
object keys are omitted. -/
def jsonStringifyVal : JsVal → Option String
  | .vUndefined => none
  | .vNull => some "null"
  | .vBool b => some (if b then "true" else "false")
  | .vNum n => some (toString n)
  | .vStr s => some ("\"" ++ String.mk (s.data.flatMap jsonEscapeChar) ++ "\"")
  | .vArr xs => some ("[" ++ jsonArrJoin xs ++ "]")
  | .vObj => some "\x7b\x7d"

/-- Array elements of `JSON.stringify`; `undefined` becomes `null` there. -/
def jsonArrJoin : List JsVal → String
  | [] => ""
  | [x] => (jsonStringifyVal x).getD "null"
  | x :: xs => (jsonStringifyVal x).getD "null" ++ "," ++ jsonArrJoin xs
end

/-- part_003 lines 86-90: the JSON-LD Organization blob
`JSON.stringify(. "@context": "https://schema.org", "@type": "Organization", name: nameVal .)`. -/
def jsonLdOrg (nameVal : JsVal) : String :=
  "\x7b\"@context\":\"https://schema.org\",\"@type\":\"Organization\"" ++
  (match jsonStringifyVal nameVal with
   | some v => ",\"name\":" ++ v
   | none => "") ++ "\x7d"

/-- `spec.seo?.title` of part_003 line 71. -/
def seoTitle (spec : SpecObj) : JsVal :=
  match spec.seo with
  | some o => o.title
  | none => JsVal.vUndefined

/-- `spec.seo?.description` of part_003 line 72. -/
def seoDescription (spec : SpecObj) : JsVal :=
  match spec.seo with
  | some o => o.description
  | none => JsVal.vUndefined

/-- part_003 line 71: `(spec.seo?.title || spec.projectName || "Website").toString()`. -/
def hTitleString (spec : SpecObj) : String :=
  jsToString (jsOr (seoTitle spec) (jsOr spec.projectName (JsVal.vStr "Website")))

/-- part_003 line 72: `(spec.seo?.description || spec.brief || "").toString()`. -/
def hDescString (spec : SpecObj) : String :=
  jsToString (jsOr (seoDescription spec) (jsOr spec.brief (JsVal.vStr "")))

/-- part_003 line 80: `spec.canonical || ""` fed to `escapeHtmlAttr` (a truthy
non-string canonical would make the JS `replace` call throw; the model renders
it with `String(x)` instead, a corner no claim touches). -/
def canonicalString (spec : SpecObj) : String :=
  if truthy spec.canonical then jsToString spec.canonical else ""

/-- part_003 lines 68-95 `ensureFullDoc` (the hardened shell with description,
canonical link, Open Graph tags and JSON-LD), built from the exact template. -/
def ensureFullDocH (html : String) (spec : SpecObj) : String :=
  if hasHtmlB html.data then html
  else
    let title := escapeHtmlAttr (hTitleString spec)
    let description := escapeHtmlAttr (hDescString spec)
    shellHead ++ title ++
    "</title>\n<meta name=\"description\" content=\"" ++ description ++
    "\"/>\n<link rel=\"canonical\" href=\"" ++ escapeHtmlAttr (canonicalString spec) ++
    "\"/>\n<!-- Open Graph minimal -->\n<meta property=\"og:title\" content=\"" ++ title ++
    "\"/>\n<meta property=\"og:description\" content=\"" ++ description ++
    "\"/>\n<meta property=\"og:type\" content=\"website\"/>\n<script type=\"application/ld+json\">\n" ++
    jsonLdOrg (jsOr spec.projectName (JsVal.vStr "Website")) ++
    "\n</script>\n</head>\n<body>" ++ html ++ "</body>\n</html>"

/-- Language-tag characters `[a-zA-Z0-9_-]` of the part_003 leading-fence regex. -/
def isLangChar (c : Char) : Bool :=
  ('a' ≤ c && c ≤ 'z') || ('A' ≤ c && c ≤ 'Z') || ('0' ≤ c && c ≤ '9') || c = '_' || c = '-'

/-- part_003 leading-fence step: `replace` of leading whitespace, three backticks,
an optional language tag and trailing whitespace; no change when the backticks
are absent. -/
def dropLeadingFenceH (l : List Char) : List Char :=
  match l.dropWhile isJsWs with
  | '`' :: '`' :: '`' :: rest => (rest.dropWhile isLangChar).dropWhile isJsWs
  | _ => l

/-- part_003 trailing-fence step: `replace` of a whitespace-surrounded final
triple backtick; leftmost match absorbs the whitespace before it as well. -/
def dropTrailingFenceH (l : List Char) : List Char :=
  match l.reverse.dropWhile isJsWs with
  | '`' :: '`' :: '`' :: rest => (rest.dropWhile isJsWs).reverse
  | _ => l

/-- part_003 step removing every run of three or more backticks (`k` counts the
pending backticks of the current run). -/
def removeTripleBacktickAux : List Char → Nat → List Char
  | [], k => if 3 ≤ k then [] else List.replicate k '`'
  | c :: rest, k =>
    if c = '`' then removeTripleBacktickAux rest (k + 1)
    else (if 3 ≤ k then [] else List.replicate k '`') ++ c :: removeTripleBacktickAux rest 0

/-- part_003 lines 46-53 `stripFences` (leading fence, trailing fence, global
triple-backtick removal, final trim). -/
def stripFencesH (s : String) : String :=
  String.mk (jsTrimL (removeTripleBacktickAux (dropTrailingFenceH (dropLeadingFenceH s.data)) 0))

/-- One `{ type?, text? }` entry of an array-shaped model output (part_003). -/
structure OutContent where
  ctype : Option String
  ctext : Option String

/-- One entry of `result.output` / `result.response.output`: either a plain
string or an object with an optional `content` array. -/
inductive OutItem where
  | str (s : String)
  | obj (content : Option (List OutContent))

/-- The `result.response` shape read by `extractTextFromModelResult`:
`textFn = some t` models `response.text` being a function whose (awaited)
value is `t`. -/
structure ModelResponse where
  textFn : Option String
  output_text : Option String
  output : Option (List OutItem)

/-- The heterogeneous model-call result read by `extractTextFromModelResult`.
`selfString = some s` models `typeof result === "string"`; `stringified` is the
`JSON.stringify(result)` image used by the final fallback. -/
structure ModelResult where
  response : Option ModelResponse
  output_text : Option String
  output : Option (List OutItem)
  selfString : Option String
  stringified : String

/-- Inner loop of the array path: first `c` with truthy `c.text` wins (the
`type.includes("output_text")` test never changes the returned value because
the second `if` returns `c.text` whenever it is truthy). -/
def scanContents : List OutContent → Option String
  | [] => none
  | c :: rest =>
    let t1 := match c.ctype, c.ctext with
      | some ty, some tx =>
        if hasSeg "output_text".data ty.data ∧ tx ≠ "" then some tx else none
      | _, _ => none
    match t1 with
    | some tx => some tx
    | none =>
      match c.ctext with
      | some tx => if tx ≠ "" then some tx else scanContents rest
      | none => scanContents rest

/-- Outer loop of the array path: objects are scanned through their `content`;
a plain string item is returned as is. -/
def scanItems : List OutItem → Option String
  | [] => none
  | OutItem.str s :: _ => some s
  | OutItem.obj cont :: rest =>
    match cont with
    | some l =>
      match scanContents l with
      | some t => some t
      | none => scanItems rest
    | none => scanItems rest

/-- Final fallback of the extractor:
`typeof result === "string" ? result : JSON.stringify(result).slice(0, 10000)`. -/
def extractFallback (res : ModelResult) : String :=
  match res.selfString with
  | some s => s
  | none => res.stringified.take 10000

/-- part_003 lines 98-136 `extractTextFromModelResult`: try
`response.text()`, then `response.output_text`, then `result.output_text`, then
the array shapes under `response.output ?? result.output`, then fall back to
stringifying. -/
def extractText : Option ModelResult → String
  | none => ""
  | some res =>
    match res.response.bind ModelResponse.textFn with
    | some t => t
    | none =>
      match res.response.bind ModelResponse.output_text with
      | some t => t
      | none =>
        match res.output_text with
        | some t => t
        | none =>
          match (res.response.bind ModelResponse.output).orElse (fun _ => res.output) with
          | some items =>
            match scanItems items with
            | some t => t
            | none => extractFallback res
          | none => extractFallback res

/-- The part of an OpenRouter `fetch` response that `callOpenRouter` reads:
`ok`, the error body text, and `data?.choices?.[0]?.message?.content` (already
`none` when any link of that optional chain is missing). -/
structure FetchResponse where
  ok : Bool
  bodyText : String
  content : Option String

/-- `server.js` lines 59-88 `callOpenRouter`, as a function of the abstracted
HTTP response: throw `OpenRouter error: <text>` on a non-2xx status, otherwise
return the extracted content with `|| ""` (a rejected `res.json()` would also
throw, a case outside this model). -/
def callOpenRouter (resp : FetchResponse) : Except String String :=
  if resp.ok = false then Except.error ("OpenRouter error: " ++ resp.bodyText)
  else Except.ok (resp.content.getD "")

/-- Outcome of one provider attempt as the fallback loop sees it: the awaited
call either threw (with an error message) or produced a text. -/
inductive Attempt where
  | err (msg : String)
  | ok (text : String)
deriving DecidableEq

/-- `server.js` lines 163-174, the fallback loop, over the list of
(model id, attempt outcome) pairs with the loop state `(html, lastErr, tried)`:
a `catch` records the message, `finally` always appends the model id, and
`if (html && html.length > 50) break` stops after a long finalized document. -/
def fallbackLoop (spec : SpecObj) :
    List (String × Attempt) → String → Option String → List String →
    String × Option String × List String
  | [], html, lastErr, tried => (html, lastErr, tried)
  | (m, Attempt.err msg) :: rest, html, _lastErr, tried =>
    fallbackLoop spec rest html (some msg) (tried ++ [m])
  | (m, Attempt.ok text) :: rest, _html, lastErr, tried =>
    let h := ensureFullDoc (stripFences text) spec
    if h ≠ "" ∧ 50 < jsLength h then (h, lastErr, tried ++ [m])
    else fallbackLoop spec rest h lastErr (tried ++ [m])


/-- part_003 lines 203-235, the hardened fallback loop: `tried.push(id)` runs at
the top of the loop, and empty or short (trimmed length < 20) extracted text is
recorded as `Empty or too short model output` before moving on. -/
def fallbackLoopH (spec : SpecObj) :
    List (String × Attempt) → String → Option String → List String →
    String × Option String × List String
  | [], html, lastErr, tried => (html, lastErr, tried)
  | (m, Attempt.err msg) :: rest, html, _lastErr, tried =>
    fallbackLoopH spec rest html (some msg) (tried ++ [m])
  | (m, Attempt.ok text) :: rest, html, lastErr, tried =>
    if text = "" ∨ jsLength (jsTrimS text) < 20 then
      fallbackLoopH spec rest html (some "Empty or too short model output") (tried ++ [m])
    else
      let h := ensureFullDocH (stripFencesH text) spec
      if h ≠ "" ∧ 50 < jsLength h then (h, lastErr, tried ++ [m])
      else fallbackLoopH spec rest h lastErr (tried ++ [m])


/-- `server.js` lines 156-161: the ordered candidate model list. -/
def modelIds : List String :=
  ["x-ai/grok-code-fast-1", "openai/gpt-4o", "anthropic/claude-3.5-sonnet",
   "deepseek/deepseek-chat"]

/-- The standard base64 alphabet used by `Buffer.prototype.toString("base64")`. -/
def b64Alphabet : List Char :=
  "ABCDEFGHIJKLMNOPQRSTUVWXYZabcdefghijklmnopqrstuvwxyz0123456789+/".data

/-- Character for a 6-bit group. -/
def b64Char (n : Nat) : Char := b64Alphabet.getD n 'A'

/-- Index of a base64 character in the alphabet (`none` for `=` and foreign
characters). -/
def b64Val (c : Char) : Option Nat := b64Alphabet.indexOf? c

/-- RFC 4648 base64 with padding, as produced by
`Buffer.from(s, "utf8").toString("base64")`, over the byte list. -/
def base64Encode : List Nat → List Char
  | a :: b :: c :: rest =>
    b64Char (a / 4) :: b64Char (a % 4 * 16 + b / 16) ::
    b64Char (b % 16 * 4 + c / 64) :: b64Char (c % 64) :: base64Encode rest
  | [a, b] => [b64Char (a / 4), b64Char (a % 4 * 16 + b / 16), b64Char (b % 16 * 4), '=']
  | [a] => [b64Char (a / 4), b64Char (a % 4 * 16), '=', '=']
  | [] => []


/-- Base64 decoding with padding (specification side of the round-trip claim). -/
def base64Decode : List Char → Option (List Nat)
  | c1 :: c2 :: c3 :: c4 :: rest =>
    match b64Val c1, b64Val c2 with
    | some v1, some v2 =>
      if c3 = '=' ∧ c4 = '=' ∧ rest = [] then some [v1 * 4 + v2 / 16]
      else
        match b64Val c3 with
        | some v3 =>
          if c4 = '=' ∧ rest = [] then some [v1 * 4 + v2 / 16, v2 % 16 * 16 + v3 / 4]
          else
            match b64Val c4 with
            | some v4 =>
              (base64Decode rest).map
                (fun tl => (v1 * 4 + v2 / 16) :: (v2 % 16 * 16 + v3 / 4) ::
                           (v3 % 4 * 64 + v4) :: tl)
            | none => none
        | none => none
    | _, _ => none
  | [] => some []
  | _ => none


/-- UTF-8 encoding of one code point (what `Buffer.from(s, "utf8")` does to each
character; lone surrogates cannot occur in a `Char`). -/
def utf8Char (c : Char) : List Nat :=
  if c.toNat < 128 then [c.toNat]
  else if c.toNat < 2048 then [192 + c.toNat / 64, 128 + c.toNat % 64]
  else if c.toNat < 65536 then
    [224 + c.toNat / 4096, 128 + c.toNat / 64 % 64, 128 + c.toNat % 64]
  else
    [240 + c.toNat / 262144, 128 + c.toNat / 4096 % 64, 128 + c.toNat / 64 % 64,
     128 + c.toNat % 64]

/-- The UTF-8 bytes of a string, `Buffer.from(s, "utf8")`. -/
def utf8Bytes (s : String) : List Nat := s.data.flatMap utf8Char

/-- `server.js` lines 184-186: the `data:` download URL for a finished document. -/
def mkDownloadUrl (html : String) : String :=
  "data:text/html;base64," ++ String.mk (base64Encode (utf8Bytes html))

/-- The three `/api/generate` response shapes relevant to the claims: 400, 502
and 200 (`details = none` models the dropped `undefined` JSON key). -/
inductive GenResponse where
  | badRequest (error : String)
  | badGateway (error : String) (details : Option String) (tried : List String)
  | success (html : String) (downloadUrl : String)
deriving DecidableEq

/-- The loop state `(html, lastErr, tried)` that the `server.js` handler reaches
after the fallback loop, given the per-model attempt outcomes. -/
def generateLoopState (spec : SpecObj) (oracle : String → Attempt) :
    String × Option String × List String :=
  fallbackLoop spec (modelIds.map (fun m => (m, oracle m))) "" none []

/-- `server.js` lines 91-195, the `/api/generate` handler: 400 when
`!spec?.brief`, otherwise run the fallback loop and answer 502 when
`!html || html.length < 20`, else 200 with the document and its data URL.
`spec? = none` covers a missing body or missing `spec`; `oracle` abstracts
`await callOpenRouter({ model, prompt })` per model id. -/
def handleGenerate (spec? : Option SpecObj) (oracle : String → Attempt) : GenResponse :=
  match spec? with
  | none => GenResponse.badRequest "spec.brief is required"
  | some spec =>
    if truthy spec.brief = false then GenResponse.badRequest "spec.brief is required"
    else
      let st := generateLoopState spec oracle
      if st.1 = "" ∨ jsLength st.1 < 20 then
        GenResponse.badGateway "Model did not return usable HTML" st.2.1 st.2.2
      else
        GenResponse.success st.1 (mkDownloadUrl st.1)

/-- Specification-side characterization of the `lastErr` variable after the
`server.js` loop has consumed all attempts: the message of the last thrown
error, if any. -/
def lastErrorMsg (l : List (String × Attempt)) : Option String :=
  l.foldl (fun acc p => match p.2 with | Attempt.err m => some m | Attempt.ok _ => acc) none

/-- The five entity tails that may follow a `&` in escaped output. -/
def entityTails : List (List Char) :=
  ["amp;".data, "lt;".data, "gt;".data, "quot;".data, "#39;".data]

/-- Every ampersand in the list starts one of the five entities: the formal
reading of "appears only in escaped form". -/
def ampEscaped : List Char → Bool
  | [] => true
  | c :: rest =>
    (if c = '&' then entityTails.any (fun t => startsWithSeg t rest) else true) &&
    ampEscaped rest

/-- Concrete spec used by the C8 witness: its title holds `<`, `&` and `"`. -/
def specWithRawTitle : SpecObj := { projectName := JsVal.vStr "A<B&\"C" }

/-- Concrete data for the C1 witness: first two candidates fail and the third
returns a long full document. -/
def oracleTwoFailThenOk : String → Attempt := fun m =>
  if m = "x-ai/grok-code-fast-1" then Attempt.err "rate limited"
  else if m = "openai/gpt-4o" then Attempt.err "timeout"
  else Attempt.ok "<html><body>0123456789012345678901234567890123456789012345</body></html>"

/-- The spec used by the handler witnesses. -/
def specBriefOnly : SpecObj := { brief := JsVal.vStr "a landing page" }

/-- Discriminator for a 200 response. -/
def isSuccessResponse : GenResponse → Bool
  | GenResponse.success _ _ => true
  | _ => false

/-! ### Basic lemmas about the embedding -/

theorem startsWithSeg_append_self (n t : List Char) : startsWithSeg n (n ++ t) = true := by
  induction n with
  | nil => rfl
  | cons a as ih => simp [startsWithSeg, ih]

theorem hasSeg_append_self (n t : List Char) : hasSeg n (n ++ t) = true := by
  cases n with
  | nil =>
    cases t with
    | nil => rfl
    | cons c r => simp [hasSeg, startsWithSeg]
  | cons a as =>
    have h1 : startsWithSeg (a :: as) (a :: (as ++ t)) = true := by
      simpa [List.cons_append] using startsWithSeg_append_self (a :: as) t
    simp [hasSeg, h1]

theorem hasDoctypeL_append (t : List Char) :
    hasDoctypeL (doctypeLine.data ++ t) = true := by
  have hmap : doctypeLine.data.map Char.toLower = doctypeLine.data := by decide
  simp [hasDoctypeL, List.map_append, hmap, hasSeg_append_self]

theorem hasHtmlB_doctype (t : List Char) : hasHtmlB (doctypeLine.data ++ t) = true := by
  simp [hasHtmlB, hasDoctypeL_append]

theorem data_shellHead : shellHead.data = doctypeLine.data ++ shellHeadRest.data :=
  String.data_append _ _

theorem hasHtmlB_shellHead_append (r : List Char) :
    hasHtmlB (shellHead.data ++ r) = true := by
  rw [data_shellHead, List.append_assoc]
  exact hasHtmlB_doctype _

theorem ensureFullDoc_of_hasHtml (x : String) (spec : SpecObj)
    (hx : hasHtmlB x.data = true) : ensureFullDoc x spec = x := by
  simp [ensureFullDoc, hx]

theorem ensureFullDocH_of_hasHtml (x : String) (spec : SpecObj)
    (hx : hasHtmlB x.data = true) : ensureFullDocH x spec = x := by
  simp [ensureFullDocH, hx]

theorem ensureFullDoc_wrap (h : String) (spec : SpecObj) (hh : hasHtmlB h.data = false) :
    ensureFullDoc h spec =
      shellHead ++ escapeHtmlAttr (titleString spec) ++ shellMid ++ h ++ shellTail := by
  simp [ensureFullDoc, hh]

theorem hasHtmlB_ensureFullDoc (h : String) (spec : SpecObj) :
    hasHtmlB (ensureFullDoc h spec).data = true := by
  by_cases hh : hasHtmlB h.data = true
  · rw [ensureFullDoc_of_hasHtml h spec hh]; exact hh
  · rw [ensureFullDoc_wrap h spec (by simpa using hh)]
    simp only [String.data_append, List.append_assoc]
    exact hasHtmlB_shellHead_append _

theorem hasHtmlB_ensureFullDocH (h : String) (spec : SpecObj) :
    hasHtmlB (ensureFullDocH h spec).data = true := by
  by_cases hh : hasHtmlB h.data = true
  · rw [ensureFullDocH_of_hasHtml h spec hh]; exact hh
  · simp only [ensureFullDocH, hh, if_false, Bool.false_eq_true]
    simp only [String.data_append, List.append_assoc]
    exact hasHtmlB_shellHead_append _

theorem escapeChar_no_raw (a : Char) :
    ∀ c ∈ escapeChar a, c ≠ '<' ∧ c ≠ '>' ∧ c ≠ '"' ∧ c ≠ singleQuote := by
  intro c hc
  by_cases h1 : a = '&'
  · subst h1; simp only [escapeChar, if_pos rfl] at hc; fin_cases hc <;> decide
  · by_cases h2 : a = '<'
    · subst h2; simp [escapeChar] at hc
      rcases hc with rfl | rfl | rfl | rfl <;> decide
    · by_cases h3 : a = '>'
      · subst h3; simp [escapeChar] at hc
        rcases hc with rfl | rfl | rfl | rfl <;> decide
      · by_cases h4 : a = '"'
        · subst h4; simp [escapeChar] at hc
          rcases hc with rfl | rfl | rfl | rfl | rfl | rfl <;> decide
        · by_cases h5 : a = singleQuote
          · subst h5
            rw [show escapeChar singleQuote = "&#39;".data from by decide] at hc
            fin_cases hc <;> decide
          · simp only [escapeChar, h1, h2, h3, h4, h5, if_false, List.mem_singleton] at hc
            subst hc
            exact ⟨h2, h3, h4, h5⟩

theorem escape_no_raw (l : List Char) :
    ∀ c ∈ l.flatMap escapeChar, c ≠ '<' ∧ c ≠ '>' ∧ c ≠ '"' ∧ c ≠ singleQuote := by
  intro c hc
  rw [List.mem_flatMap] at hc
  obtain ⟨a, _, hca⟩ := hc
  exact escapeChar_no_raw a c hca

theorem ampEscaped_entity_chunk (t : List Char) (ht : t ∈ entityTails) (R : List Char)
    (hR : ampEscaped R = true) : ampEscaped ('&' :: (t ++ R)) = true := by
  have hany : entityTails.any (fun x => startsWithSeg x (t ++ R)) = true :=
    List.any_eq_true.mpr ⟨t, ht, startsWithSeg_append_self t R⟩
  have hmid : ampEscaped (t ++ R) = true := by
    fin_cases ht <;> simp [ampEscaped, hR]
  simp [ampEscaped, hany, hmid]

theorem ampEscaped_escape (l : List Char) : ampEscaped (l.flatMap escapeChar) = true := by
  induction l with
  | nil => rfl
  | cons a l ih =>
    rw [List.flatMap_cons]
    by_cases h1 : a = '&'
    · subst h1
      have he : escapeChar '&' = '&' :: "amp;".data := by decide
      rw [he]
      simpa using ampEscaped_entity_chunk "amp;".data (by decide) _ ih
    · by_cases h2 : a = '<'
      · subst h2
        have he : escapeChar '<' = '&' :: "lt;".data := by decide
        rw [he]
        simpa using ampEscaped_entity_chunk "lt;".data (by decide) _ ih
      · by_cases h3 : a = '>'
        · subst h3
          have he : escapeChar '>' = '&' :: "gt;".data := by decide
          rw [he]
          simpa using ampEscaped_entity_chunk "gt;".data (by decide) _ ih
        · by_cases h4 : a = '"'
          · subst h4
            have he : escapeChar '"' = '&' :: "quot;".data := by decide
            rw [he]
            simpa using ampEscaped_entity_chunk "quot;".data (by decide) _ ih
          · by_cases h5 : a = singleQuote
            · subst h5
              have he : escapeChar singleQuote = '&' :: "#39;".data := by decide
              rw [he]
              simpa using ampEscaped_entity_chunk "#39;".data (by decide) _ ih
            · have he : escapeChar a = [a] := by
                simp [escapeChar, h1, h2, h3, h4, h5]
              simp [he, ampEscaped, h1, ih]

/-! ### Claim theorems: document finalizer -/

/-- C5: for every input string `h` and spec `s`, applying `ensureFullDoc` to its
own output returns that output unchanged, because the wrapped shell always
contains a doctype and an `<html` tag matched by the case-insensitive
detection, so the second application hits the `hasHtml` early return.  This
holds for the `server.js` finalizer and for the hardened part_003 finalizer. -/
theorem ensureFullDoc_idempotent (h : String) (spec : SpecObj) :
    ensureFullDoc (ensureFullDoc h spec) spec = ensureFullDoc h spec ∧
    ensureFullDocH (ensureFullDocH h spec) spec = ensureFullDocH h spec :=
  ⟨ensureFullDoc_of_hasHtml _ _ (hasHtmlB_ensureFullDoc h spec),
   ensureFullDocH_of_hasHtml _ _ (hasHtmlB_ensureFullDocH h spec)⟩

/-- C8: whenever `ensureFullDoc` wraps a fragment, the interpolated title is
`escapeHtmlAttr` of the title string, whose output contains no raw angle
bracket, double quote or single quote, and in which every ampersand starts one
of the five entities
`&amp; &lt; &gt; &quot; &#39;`; likewise for the title and the description
interpolated by the hardened part_003 shell. -/
theorem generated_shell_escapes_title (spec : SpecObj) (h : String)
    (hh : hasHtmlB h.data = false) :
    ensureFullDoc h spec =
      shellHead ++ escapeHtmlAttr (titleString spec) ++ shellMid ++ h ++ shellTail ∧
    (∀ c ∈ (escapeHtmlAttr (titleString spec)).data,
      c ≠ '<' ∧ c ≠ '>' ∧ c ≠ '"' ∧ c ≠ singleQuote) ∧
    ampEscaped (escapeHtmlAttr (titleString spec)).data = true ∧
    (∃ m1 m2, ensureFullDocH h spec =
      shellHead ++ escapeHtmlAttr (hTitleString spec) ++ m1 ++
        escapeHtmlAttr (hDescString spec) ++ m2) ∧
    (∀ c ∈ (escapeHtmlAttr (hTitleString spec)).data,
      c ≠ '<' ∧ c ≠ '>' ∧ c ≠ '"' ∧ c ≠ singleQuote) ∧
    ampEscaped (escapeHtmlAttr (hTitleString spec)).data = true ∧
    (∀ c ∈ (escapeHtmlAttr (hDescString spec)).data,
      c ≠ '<' ∧ c ≠ '>' ∧ c ≠ '"' ∧ c ≠ singleQuote) ∧
    ampEscaped (escapeHtmlAttr (hDescString spec)).data = true := by
  refine ⟨ensureFullDoc_wrap h spec hh, escape_no_raw _, ampEscaped_escape _,
    ⟨"</title>\n<meta name=\"description\" content=\"",
     "\"/>\n<link rel=\"canonical\" href=\"" ++ escapeHtmlAttr (canonicalString spec) ++
     "\"/>\n<!-- Open Graph minimal -->\n<meta property=\"og:title\" content=\"" ++
     escapeHtmlAttr (hTitleString spec) ++
     "\"/>\n<meta property=\"og:description\" content=\"" ++
     escapeHtmlAttr (hDescString spec) ++
     "\"/>\n<meta property=\"og:type\" content=\"website\"/>\n<script type=\"application/ld+json\">\n" ++
     jsonLdOrg (jsOr spec.projectName (JsVal.vStr "Website")) ++
     "\n</script>\n</head>\n<body>" ++ h ++ "</body>\n</html>", ?_⟩,
    escape_no_raw _, ampEscaped_escape _, escape_no_raw _, ampEscaped_escape _⟩
  simp only [ensureFullDocH, hh, if_false, Bool.false_eq_true]
  apply String.ext
  simp only [String.data_append, List.append_assoc]

/-- Witness for C8 at a concrete fragment and a title containing markup characters. -/
theorem generated_shell_escapes_title_witness :
    ensureFullDoc "frag" specWithRawTitle =
      shellHead ++ escapeHtmlAttr (titleString specWithRawTitle) ++ shellMid ++
        "frag" ++ shellTail :=
  (generated_shell_escapes_title specWithRawTitle "frag" (by decide)).1

/-- C10: when `ensureFullDoc` wraps a fragment (no `<html` tag and no doctype in
the input), the fragment is interpolated verbatim: the output contains the
input as a contiguous substring, unescaped, in both the `server.js` and the
hardened shell. -/
theorem fragment_interpolated_verbatim (h : String) (spec : SpecObj)
    (hh : hasHtmlB h.data = false) :
    (∃ pre post, (ensureFullDoc h spec).data = pre ++ h.data ++ post) ∧
    (∃ pre post, (ensureFullDocH h spec).data = pre ++ h.data ++ post) := by
  constructor
  · refine ⟨(shellHead ++ escapeHtmlAttr (titleString spec) ++ shellMid).data,
      shellTail.data, ?_⟩
    rw [ensureFullDoc_wrap h spec hh]
    simp only [String.data_append, List.append_assoc]
  · simp only [ensureFullDocH, hh, if_false, Bool.false_eq_true]
    refine ⟨(shellHead ++ escapeHtmlAttr (hTitleString spec) ++
      "</title>\n<meta name=\"description\" content=\"" ++
      escapeHtmlAttr (hDescString spec) ++
      "\"/>\n<link rel=\"canonical\" href=\"" ++ escapeHtmlAttr (canonicalString spec) ++
      "\"/>\n<!-- Open Graph minimal -->\n<meta property=\"og:title\" content=\"" ++
      escapeHtmlAttr (hTitleString spec) ++
      "\"/>\n<meta property=\"og:description\" content=\"" ++
      escapeHtmlAttr (hDescString spec) ++
      "\"/>\n<meta property=\"og:type\" content=\"website\"/>\n<script type=\"application/ld+json\">\n" ++
      jsonLdOrg (jsOr spec.projectName (JsVal.vStr "Website")) ++
      "\n</script>\n</head>\n<body>").data, "</body>\n</html>".data, ?_⟩
    simp only [String.data_append, List.append_assoc]

/-- Witness for C10 at a concrete fragment with markup characters. -/
theorem fragment_interpolated_verbatim_witness :
    ∃ pre post, (ensureFullDoc "<p>x & y</p>" specWithRawTitle).data =
      pre ++ "<p>x & y</p>".data ++ post :=
  (fragment_interpolated_verbatim "<p>x & y</p>" specWithRawTitle (by decide)).1

/-! ### Lemmas about trimming and fence removal -/

theorem dropWhile_eq_self_of_jsTrim (l : List Char) (h : jsTrimL l = l) :
    l.dropWhile isJsWs = l := by
  have hsuf : l.dropWhile isJsWs <:+ l := List.dropWhile_suffix _
  have h2 : l.length ≤ (l.dropWhile isJsWs).length := by
    have hlen : (jsTrimL l).length ≤ (l.dropWhile isJsWs).length := by
      unfold jsTrimL
      calc ((l.dropWhile isJsWs).reverse.dropWhile isJsWs).reverse.length
          = ((l.dropWhile isJsWs).reverse.dropWhile isJsWs).length := by simp
        _ ≤ (l.dropWhile isJsWs).reverse.length := (List.dropWhile_suffix _).length_le
        _ = (l.dropWhile isJsWs).length := by simp
    rw [h] at hlen
    exact hlen
  exact hsuf.eq_of_length (Nat.le_antisymm hsuf.length_le h2)

theorem rev_dropWhile_eq_self_of_jsTrim (l : List Char) (h : jsTrimL l = l) :
    l.reverse.dropWhile isJsWs = l.reverse := by
  have h1 := dropWhile_eq_self_of_jsTrim l h
  have h3 : jsTrimL l = (l.reverse.dropWhile isJsWs).reverse := by
    unfold jsTrimL; rw [h1]
  rw [h] at h3
  have h4 := congrArg List.reverse h3
  simpa using h4.symm

theorem head_not_ws (c : Char) (rest : List Char)
    (h : (c :: rest).dropWhile isJsWs = c :: rest) : isJsWs c = false := by
  by_contra hc
  rw [Bool.not_eq_false] at hc
  rw [List.dropWhile_cons_of_pos hc] at h
  have hlen := congrArg List.length h
  have hle := (List.dropWhile_suffix (l := rest) isJsWs).length_le
  simp at hlen
  omega

theorem jsTrimL_backticks (M : List Char) :
    jsTrimL ('`' :: (M ++ ['`'])) = '`' :: (M ++ ['`']) := by
  unfold jsTrimL
  rw [List.dropWhile_cons_of_neg (by decide)]
  have hrev : ('`' :: (M ++ ['`'])).reverse = '`' :: (M.reverse ++ ['`']) := by simp
  rw [hrev, List.dropWhile_cons_of_neg (by decide), ← hrev, List.reverse_reverse]

theorem dropLeadingFence_html (X : List Char) :
    dropLeadingFence ('`' :: '`' :: '`' :: 'h' :: 't' :: 'm' :: 'l' :: '\n' :: X) =
      X.dropWhile isJsWs := by
  show (if ('h'.toLower = 'h' ∧ 't'.toLower = 't' ∧ 'm'.toLower = 'm' ∧ 'l'.toLower = 'l')
        then ('\n' :: X) else ('h' :: 't' :: 'm' :: 'l' :: '\n' :: X)).dropWhile isJsWs =
      X.dropWhile isJsWs
  rw [if_pos (by decide)]
  rw [List.dropWhile_cons_of_pos (by decide)]

theorem dropLeadingFence_bare (X : List Char) :
    dropLeadingFence ('`' :: '`' :: '`' :: '\n' :: X) = X.dropWhile isJsWs := by
  match X with
  | [] => decide
  | [a] =>
    show (('\n' : Char) :: [a]).dropWhile isJsWs = _
    rw [List.dropWhile_cons_of_pos (by decide)]
  | [a, b] =>
    show (('\n' : Char) :: [a, b]).dropWhile isJsWs = _
    rw [List.dropWhile_cons_of_pos (by decide)]
  | a :: b :: c :: X' =>
    show (if (('\n' : Char).toLower = 'h' ∧ a.toLower = 't' ∧ b.toLower = 'm' ∧ c.toLower = 'l')
          then (b :: c :: X') else ('\n' :: a :: b :: c :: X')).dropWhile isJsWs = _
    rw [if_neg (by intro hcon; exact absurd hcon.1 (by decide))]
    rw [List.dropWhile_cons_of_pos (by decide)]

theorem dropTrailingFence_append (Y : List Char) :
    dropTrailingFence (Y ++ ['\n', '`', '`', '`']) = Y ++ ['\n'] := by
  have hrev : (Y ++ ['\n', '`', '`', '`']).reverse = '`' :: '`' :: '`' :: '\n' :: Y.reverse := by
    simp
  unfold dropTrailingFence
  rw [hrev]
  simp

theorem jsTrimL_append_newline (bd : List Char)
    (h1 : bd.dropWhile isJsWs = bd) (h2 : bd.reverse.dropWhile isJsWs = bd.reverse) :
    jsTrimL (bd ++ ['\n']) = bd := by
  cases bd with
  | nil => decide
  | cons c bd' =>
    have hc : isJsWs c = false := head_not_ws c bd' h1
    unfold jsTrimL
    rw [List.cons_append, List.dropWhile_cons_of_neg (by simp [hc])]
    have hrev : (c :: (bd' ++ ['\n'])).reverse = '\n' :: (c :: bd').reverse := by simp
    rw [hrev, List.dropWhile_cons_of_pos (by decide), h2, List.reverse_reverse]

theorem dropLeadingFence_no_backtick (l : List Char) (hl : l.head? ≠ some '`') :
    dropLeadingFence l = l := by
  unfold dropLeadingFence
  split
  · next r => exact absurd rfl hl
  · rfl

theorem dropTrailingFence_no_backtick (l : List Char) (hl : l.reverse.head? ≠ some '`') :
    dropTrailingFence l = l := by
  unfold dropTrailingFence
  split
  · next rest heq =>
    exfalso
    apply hl
    rw [heq]
    rfl
  · rfl

theorem head?_ne_backtick (l : List Char) (h : ∀ c ∈ l, c ≠ '`') :
    l.head? ≠ some '`' := by
  cases l with
  | nil => simp
  | cons c l' =>
    simp only [List.head?_cons, ne_eq, Option.some.injEq]
    exact h c (by simp)

/-! ### Claim theorems: stripFences -/

/-- C6 counterexample: the fence-free input made only of a letter and
surrounding spaces is not returned unchanged; `stripFences` trims it. -/
theorem stripFences_trims_fence_free_input :
    stripFences " x " ≠ " x " ∧ stripFences " x " = "x" := by
  constructor
  · decide
  · decide

/-- C6 (amended): `stripFences` removes a leading ```` ```html ```` fence (or a
bare ```` ``` ```` fence) together with the newline after it and a trailing
```` ``` ```` fence; fence-free input is returned JS-trimmed, hence unchanged
exactly when it carries no surrounding whitespace. -/
theorem stripFences_removes_fences (body : String) (htrim : jsTrimS body = body) :
    stripFences ("```html\n" ++ body ++ "\n```") = body ∧
    stripFences ("```\n" ++ body ++ "\n```") = body ∧
    ((∀ c ∈ body.data, c ≠ '`') → stripFences body = body) := by
  have hbd : jsTrimL body.data = body.data := congrArg String.data htrim
  have h1 : body.data.dropWhile isJsWs = body.data := dropWhile_eq_self_of_jsTrim _ hbd
  have h2 : body.data.reverse.dropWhile isJsWs = body.data.reverse :=
    rev_dropWhile_eq_self_of_jsTrim _ hbd
  refine ⟨?_, ?_, ?_⟩
  · rcases hbd2 : body.data with _ | ⟨c, bd'⟩
    · have hb : body = "" := String.ext (by rw [hbd2])
      subst hb; decide
    · have hcw : isJsWs c = false := by
        rw [hbd2] at h1; exact head_not_ws c bd' h1
      show String.mk (jsTrimL (dropTrailingFence (dropLeadingFence
        (jsTrimL ("```html\n" ++ body ++ "\n```").data)))) = body
      have step1 : ("```html\n" ++ body ++ "\n```").data =
          '`' :: '`' :: '`' :: 'h' :: 't' :: 'm' :: 'l' :: '\n' ::
            (body.data ++ ['\n', '`', '`', '`']) := by
        simp only [String.data_append, List.append_assoc]; rfl
      have hM : ('`' : Char) :: '`' :: '`' :: 'h' :: 't' :: 'm' :: 'l' :: '\n' ::
            (body.data ++ ['\n', '`', '`', '`']) =
          '`' :: (('`' :: '`' :: 'h' :: 't' :: 'm' :: 'l' :: '\n' ::
            (body.data ++ ['\n', '`', '`'])) ++ ['`']) := by
        simp
      have hx : (body.data ++ ['\n', '`', '`', '`']).dropWhile isJsWs =
          body.data ++ ['\n', '`', '`', '`'] := by
        rw [hbd2, List.cons_append]
        exact List.dropWhile_cons_of_neg (by simp [hcw])
      rw [step1, hM, jsTrimL_backticks, ← hM, dropLeadingFence_html, hx,
        dropTrailingFence_append, jsTrimL_append_newline body.data h1 h2]
  · rcases hbd2 : body.data with _ | ⟨c, bd'⟩
    · have hb : body = "" := String.ext (by rw [hbd2])
      subst hb; decide
    · have hcw : isJsWs c = false := by
        rw [hbd2] at h1; exact head_not_ws c bd' h1
      show String.mk (jsTrimL (dropTrailingFence (dropLeadingFence
        (jsTrimL ("```\n" ++ body ++ "\n```").data)))) = body
      have step1 : ("```\n" ++ body ++ "\n```").data =
          '`' :: '`' :: '`' :: '\n' :: (body.data ++ ['\n', '`', '`', '`']) := by
        simp only [String.data_append, List.append_assoc]; rfl
      have hM : ('`' : Char) :: '`' :: '`' :: '\n' ::
            (body.data ++ ['\n', '`', '`', '`']) =
          '`' :: (('`' :: '`' :: '\n' :: (body.data ++ ['\n', '`', '`'])) ++ ['`']) := by
        simp
      have hx : (body.data ++ ['\n', '`', '`', '`']).dropWhile isJsWs =
          body.data ++ ['\n', '`', '`', '`'] := by
        rw [hbd2, List.cons_append]
        exact List.dropWhile_cons_of_neg (by simp [hcw])
      rw [step1, hM, jsTrimL_backticks, ← hM, dropLeadingFence_bare, hx,
        dropTrailingFence_append, jsTrimL_append_newline body.data h1 h2]
  · intro hnb
    show String.mk (jsTrimL (dropTrailingFence (dropLeadingFence (jsTrimL body.data)))) = body
    rw [hbd, dropLeadingFence_no_backtick body.data (head?_ne_backtick _ hnb),
      dropTrailingFence_no_backtick body.data
        (head?_ne_backtick _ (fun c hc => hnb c (List.mem_reverse.mp hc))),
      hbd]

/-- Witness for the amended C6 at a concrete fenced document. -/
theorem stripFences_removes_fences_witness :
    stripFences "```html\n<p>hi</p>\n```" = "<p>hi</p>" := by
  have h := (stripFences_removes_fences "<p>hi</p>" (by decide)).1
  have he : ("```html\n" ++ "<p>hi</p>" ++ "\n```" : String) = "```html\n<p>hi</p>\n```" := by
    decide
  rw [he] at h
  exact h

/-! ### Lemmas about toKebab and pages normalization -/

theorem hdh_eq_true_iff (l : List Char) :
    hasDoubleHyphen l = true ↔ ∃ s t, l = s ++ '-' :: '-' :: t := by
  constructor
  · intro h
    induction l with
    | nil => simp [hasDoubleHyphen] at h
    | cons a l ih =>
      cases l with
      | nil => simp [hasDoubleHyphen] at h
      | cons b r =>
        rw [show hasDoubleHyphen (a :: b :: r) =
            ((a = '-' && b = '-') || hasDoubleHyphen (b :: r)) from rfl] at h
        rcases Bool.or_eq_true_iff.mp h with h1 | h2
        · have ha : a = '-' ∧ b = '-' := by simpa using h1
          exact ⟨[], r, by simp [ha.1, ha.2]⟩
        · obtain ⟨s, t, hst⟩ := ih h2
          exact ⟨a :: s, t, by simp [hst]⟩
  · rintro ⟨s, t, rfl⟩
    induction s with
    | nil => simp [hasDoubleHyphen]
    | cons a s ih =>
      cases hs : s ++ '-' :: '-' :: t with
      | nil => simp at hs
      | cons b r =>
        rw [List.cons_append, hs,
          show hasDoubleHyphen (a :: b :: r) =
            ((a = '-' && b = '-') || hasDoubleHyphen (b :: r)) from rfl,
          ← hs, ih, Bool.or_true]

theorem hdh_reverse (l : List Char) :
    hasDoubleHyphen l.reverse = hasDoubleHyphen l := by
  have hiff : hasDoubleHyphen l.reverse = true ↔ hasDoubleHyphen l = true := by
    rw [hdh_eq_true_iff, hdh_eq_true_iff]
    constructor
    · rintro ⟨s, t, h⟩
      refine ⟨t.reverse, s.reverse, ?_⟩
      have h2 := congrArg List.reverse h
      simpa using h2
    · rintro ⟨s, t, h⟩
      exact ⟨t.reverse, s.reverse, by rw [h]; simp⟩
  cases h1 : hasDoubleHyphen l <;> cases h2 : hasDoubleHyphen l.reverse <;> simp_all

theorem hdh_false_tail (c : Char) (rest : List Char)
    (h : hasDoubleHyphen (c :: rest) = false) : hasDoubleHyphen rest = false := by
  cases rest with
  | nil => rfl
  | cons b r =>
    rw [show hasDoubleHyphen (c :: b :: r) =
        ((c = '-' && b = '-') || hasDoubleHyphen (b :: r)) from rfl] at h
    simpa using (Bool.or_eq_false_iff.mp h).2

theorem hdh_dropLeadingHyphen (l : List Char) (h : hasDoubleHyphen l = false) :
    hasDoubleHyphen (dropLeadingHyphen l) = false := by
  unfold dropLeadingHyphen
  split
  · next r => exact hdh_false_tail _ _ h
  · exact h

theorem hdh_stripEdgeHyphens (l : List Char) (h : hasDoubleHyphen l = false) :
    hasDoubleHyphen (stripEdgeHyphens l) = false := by
  have h1 := hdh_dropLeadingHyphen l h
  have h2 : hasDoubleHyphen (dropLeadingHyphen l).reverse = false := by
    rw [hdh_reverse]; exact h1
  have h3 := hdh_dropLeadingHyphen _ h2
  unfold stripEdgeHyphens
  rw [hdh_reverse]
  exact h3

theorem collapseRunsAux_mem (p : Char → Bool) (r : Char) (l : List Char) :
    ∀ (b : Bool), ∀ c ∈ collapseRunsAux p r b l, c = r ∨ c ∈ l := by
  induction l with
  | nil => intro b c hc; simp [collapseRunsAux] at hc
  | cons a l ih =>
    intro b c hc
    unfold collapseRunsAux at hc
    by_cases hp : p a
    · rw [if_pos hp] at hc
      cases b with
      | true =>
        simp only [if_pos rfl] at hc
        rcases ih true c hc with h | h
        · exact Or.inl h
        · exact Or.inr (List.mem_cons_of_mem _ h)
      | false =>
        simp only [Bool.false_eq_true, if_false] at hc
        rcases List.mem_cons.mp hc with rfl | hc2
        · exact Or.inl rfl
        · rcases ih true c hc2 with h | h
          · exact Or.inl h
          · exact Or.inr (List.mem_cons_of_mem _ h)
    · rw [if_neg hp] at hc
      rcases List.mem_cons.mp hc with rfl | hc2
      · exact Or.inr (List.mem_cons_self _ _)
      · rcases ih false c hc2 with h | h
        · exact Or.inl h
        · exact Or.inr (List.mem_cons_of_mem _ h)

theorem dropLeadingHyphen_subset (l : List Char) : ∀ c ∈ dropLeadingHyphen l, c ∈ l := by
  unfold dropLeadingHyphen
  split
  · next r => intro c hc; exact List.mem_cons_of_mem _ hc
  · intro c hc; exact hc

theorem stripEdgeHyphens_subset (l : List Char) : ∀ c ∈ stripEdgeHyphens l, c ∈ l := by
  intro c hc
  unfold stripEdgeHyphens at hc
  rw [List.mem_reverse] at hc
  have h1 := dropLeadingHyphen_subset _ _ hc
  rw [List.mem_reverse] at h1
  exact dropLeadingHyphen_subset _ _ h1

theorem collapseHyphens_no_double (l : List Char) :
    hasDoubleHyphen (collapseRunsAux (fun c => c = '-') '-' false l) = false ∧
    hasDoubleHyphen (collapseRunsAux (fun c => c = '-') '-' true l) = false ∧
    ∀ c rest, collapseRunsAux (fun c => c = '-') '-' true l = c :: rest → c ≠ '-' := by
  induction l with
  | nil =>
    refine ⟨rfl, rfl, fun c rest h => ?_⟩
    simp [collapseRunsAux] at h
  | cons a l ih =>
    obtain ⟨ihf, iht, ihh⟩ := ih
    by_cases ha : a = '-'
    · subst ha
      have hf : collapseRunsAux (fun c => c = '-') '-' false ('-' :: l) =
          '-' :: collapseRunsAux (fun c => c = '-') '-' true l := by
        simp [collapseRunsAux]
      have ht : collapseRunsAux (fun c => c = '-') '-' true ('-' :: l) =
          collapseRunsAux (fun c => c = '-') '-' true l := by
        simp [collapseRunsAux]
      refine ⟨?_, by rw [ht]; exact iht, ?_⟩
      · rw [hf]
        cases hX : collapseRunsAux (fun c => c = '-') '-' true l with
        | nil => rfl
        | cons b r =>
          have hb : b ≠ '-' := ihh b r hX
          rw [show hasDoubleHyphen ('-' :: b :: r) =
              (('-' = '-' && b = '-') || hasDoubleHyphen (b :: r)) from rfl]
          rw [← hX, iht]
          simp [hb]
      · intro c rest h
        rw [ht] at h
        exact ihh c rest h
    · have hf : collapseRunsAux (fun c => c = '-') '-' false (a :: l) =
          a :: collapseRunsAux (fun c => c = '-') '-' false l := by
        simp [collapseRunsAux, ha]
      have ht : collapseRunsAux (fun c => c = '-') '-' true (a :: l) =
          a :: collapseRunsAux (fun c => c = '-') '-' false l := by
        simp [collapseRunsAux, ha]
      have hcons : hasDoubleHyphen (a :: collapseRunsAux (fun c => c = '-') '-' false l) =
          false := by
        cases hX : collapseRunsAux (fun c => c = '-') '-' false l with
        | nil => rfl
        | cons b r =>
          rw [show hasDoubleHyphen (a :: b :: r) =
              ((a = '-' && b = '-') || hasDoubleHyphen (b :: r)) from rfl]
          rw [← hX, ihf]
          simp [ha]
      refine ⟨by rw [hf]; exact hcons, by rw [ht]; exact hcons, ?_⟩
      · intro c rest h
        rw [ht] at h
        injection h with h1 _
        subst h1
        exact ha

theorem toKebab_slug (s : String) :
    (∀ c ∈ (toKebab s).data, isSlugChar c = true) ∧
    hasDoubleHyphen (toKebab s).data = false := by
  constructor
  · intro c hc
    have hc' : c ∈ stripEdgeHyphens
        (collapseRuns (fun c => c = '-') '-'
          (List.filter isSlugChar
            (collapseRuns isKebabWs '-' ((jsTrimL s.data).map Char.toLower)))) := hc
    have h1 := stripEdgeHyphens_subset _ _ hc'
    have h2 := collapseRunsAux_mem (fun c => c = '-') '-' _ false _ h1
    rcases h2 with rfl | h3
    · decide
    · exact List.of_mem_filter h3
  · exact hdh_stripEdgeHyphens _ (collapseHyphens_no_double _).1

/-! ### Claim theorems: pages normalization -/

/-- C7 counterexample: with input pages `["Contact", "Home"]` the normalized
list is `["contact", "home"]` — "home" is present but is not the first page,
because the `unshift` only fires when "home" is absent. -/
theorem home_not_first_counterexample :
    normalizePages (JsVal.vArr [JsVal.vStr "Contact", JsVal.vStr "Home"]) =
      ["contact", "home"] ∧
    (normalizePages (JsVal.vArr [JsVal.vStr "Contact", JsVal.vStr "Home"])).head? ≠
      some "home" := by
  constructor
  · decide
  · decide

/-- C7 (amended): every normalized page is a slug over `[a-z0-9-]` with
collapsed hyphens, "home" is always present, and "home" is prepended as the
first page exactly when it is not already among the slugified pages; the
example `["About Us", "Contact"]` normalizes to `["home", "about-us",
"contact"]`. -/
theorem pages_normalized (pages : JsVal) :
    "home" ∈ normalizePages pages ∧
    (∀ p ∈ normalizePages pages,
      (∀ c ∈ p.data, isSlugChar c = true) ∧ hasDoubleHyphen p.data = false) ∧
    ((slugPages pages).contains "home" = false →
      (normalizePages pages).head? = some "home") ∧
    normalizePages (JsVal.vArr [JsVal.vStr "About Us", JsVal.vStr "Contact"]) =
      ["home", "about-us", "contact"] := by
  refine ⟨?_, ?_, ?_, by decide⟩
  · unfold normalizePages
    split
    · next hcon => exact List.mem_of_elem_eq_true hcon
    · exact List.mem_cons_self _ _
  · intro p hp
    have hp' : p = "home" ∨ p ∈ slugPages pages := by
      unfold normalizePages at hp
      split at hp
      · exact Or.inr hp
      · rcases List.mem_cons.mp hp with rfl | h
        · exact Or.inl rfl
        · exact Or.inr h
    rcases hp' with rfl | hmem
    · exact ⟨fun c hc => by fin_cases hc <;> decide, by decide⟩
    · unfold slugPages at hmem
      split at hmem
      · next xs =>
        have h1 := List.mem_filter.mp hmem
        obtain ⟨x, _, hx⟩ := List.mem_map.mp h1.1
        rw [← hx]
        exact toKebab_slug (jsToString x)
      · simp at hmem
  · intro hcon
    unfold normalizePages
    rw [hcon]
    rfl

/-- Witness for the amended C7 at the spec example input. -/
theorem pages_normalized_witness :
    "home" ∈ normalizePages (JsVal.vArr [JsVal.vStr "About Us", JsVal.vStr "Contact"]) :=
  (pages_normalized (JsVal.vArr [JsVal.vStr "About Us", JsVal.vStr "Contact"])).1

/-! ### Lemmas about the fallback loop -/

theorem ne_empty_of_jsLength_gt (h : String) (hl : 50 < jsLength h) : h ≠ "" := by
  intro he
  subst he
  simp [jsLength] at hl

theorem fallbackLoop_err_segment (spec : SpecObj) :
    ∀ (pre : List (String × Attempt)), (∀ q ∈ pre, ∃ msg, q.2 = Attempt.err msg) →
    ∀ (m : String) (t : String) (rest : List (String × Attempt))
      (html0 : String) (e0 : Option String) (tried0 : List String),
      50 < jsLength (ensureFullDoc (stripFences t) spec) →
      ∃ e, fallbackLoop spec (pre ++ (m, Attempt.ok t) :: rest) html0 e0 tried0 =
        (ensureFullDoc (stripFences t) spec, e, tried0 ++ pre.map Prod.fst ++ [m]) := by
  intro pre
  induction pre with
  | nil =>
    intro _ m t rest html0 e0 tried0 hlen
    refine ⟨e0, ?_⟩
    simp only [List.nil_append, List.map_nil, List.append_nil]
    rw [show fallbackLoop spec ((m, Attempt.ok t) :: rest) html0 e0 tried0 =
        (if ensureFullDoc (stripFences t) spec ≠ "" ∧
            50 < jsLength (ensureFullDoc (stripFences t) spec)
         then (ensureFullDoc (stripFences t) spec, e0, tried0 ++ [m])
         else fallbackLoop spec rest (ensureFullDoc (stripFences t) spec) e0
           (tried0 ++ [m])) from rfl]
    rw [if_pos ⟨ne_empty_of_jsLength_gt _ hlen, hlen⟩]
  | cons q pre ih =>
    intro hpre m t rest html0 e0 tried0 hlen
    obtain ⟨mq, aq⟩ := q
    obtain ⟨msg, hmsg⟩ := hpre (mq, aq) (List.mem_cons_self _ _)
    simp only at hmsg
    subst hmsg
    have hpre' : ∀ q ∈ pre, ∃ msg, q.2 = Attempt.err msg :=
      fun q hq => hpre q (List.mem_cons_of_mem _ hq)
    obtain ⟨e, he⟩ := ih hpre' m t rest html0 (some msg) (tried0 ++ [mq]) hlen
    refine ⟨e, ?_⟩
    rw [List.cons_append,
      show fallbackLoop spec ((mq, Attempt.err msg) :: (pre ++ (m, Attempt.ok t) :: rest))
          html0 e0 tried0 =
        fallbackLoop spec (pre ++ (m, Attempt.ok t) :: rest) html0 (some msg)
          (tried0 ++ [mq]) from rfl,
      he]
    simp

theorem fallbackLoop_all_fail (spec : SpecObj) :
    ∀ (l : List (String × Attempt)),
      (∀ q ∈ l, (∃ msg, q.2 = Attempt.err msg) ∨
        (∃ t, q.2 = Attempt.ok t ∧ jsLength (ensureFullDoc (stripFences t) spec) < 20)) →
      ∀ (html0 : String) (e0 : Option String) (tried0 : List String),
        jsLength html0 < 20 →
        ∃ htmlF, fallbackLoop spec l html0 e0 tried0 =
          (htmlF,
           l.foldl (fun acc q => match q.2 with
             | Attempt.err m => some m | Attempt.ok _ => acc) e0,
           tried0 ++ l.map Prod.fst) ∧
          jsLength htmlF < 20 := by
  intro l
  induction l with
  | nil =>
    intro _ html0 e0 tried0 h0
    exact ⟨html0, by simp [fallbackLoop], h0⟩
  | cons q l ih =>
    intro hq html0 e0 tried0 h0
    obtain ⟨mq, aq⟩ := q
    have hl' : ∀ q ∈ l, (∃ msg, q.2 = Attempt.err msg) ∨
        (∃ t, q.2 = Attempt.ok t ∧ jsLength (ensureFullDoc (stripFences t) spec) < 20) :=
      fun q hql => hq q (List.mem_cons_of_mem _ hql)
    rcases hq (mq, aq) (List.mem_cons_self _ _) with ⟨msg, hmsg⟩ | ⟨t, ht, hlt⟩
    · simp only at hmsg
      subst hmsg
      obtain ⟨htmlF, heq, hF⟩ := ih hl' html0 (some msg) (tried0 ++ [mq]) h0
      refine ⟨htmlF, ?_, hF⟩
      rw [show fallbackLoop spec ((mq, Attempt.err msg) :: l) html0 e0 tried0 =
          fallbackLoop spec l html0 (some msg) (tried0 ++ [mq]) from rfl, heq]
      simp
    · simp only at ht
      subst ht
      have hneg : ¬ (ensureFullDoc (stripFences t) spec ≠ "" ∧
          50 < jsLength (ensureFullDoc (stripFences t) spec)) := by
        intro ⟨_, hgt⟩
        omega
      obtain ⟨htmlF, heq, hF⟩ :=
        ih hl' (ensureFullDoc (stripFences t) spec) e0 (tried0 ++ [mq]) hlt
      refine ⟨htmlF, ?_, hF⟩
      rw [show fallbackLoop spec ((mq, Attempt.ok t) :: l) html0 e0 tried0 =
          (if ensureFullDoc (stripFences t) spec ≠ "" ∧
              50 < jsLength (ensureFullDoc (stripFences t) spec)
           then (ensureFullDoc (stripFences t) spec, e0, tried0 ++ [mq])
           else fallbackLoop spec l (ensureFullDoc (stripFences t) spec) e0
             (tried0 ++ [mq])) from rfl,
        if_neg hneg, heq]
      simp

/-! ### Claim theorems: the /api/generate handler -/

/-- C1: if every attempt before the i-th (0-based) fails and the i-th yields
finalized HTML longer than 50 UTF-16 units, the handler answers 200 with that
finalized document, and the attempted-list holds exactly the first i+1 model
identifiers in candidate order. -/
theorem generate_fallback_success (spec : SpecObj) (oracle : String → Attempt)
    (i : Nat) (t : String)
    (hbrief : truthy spec.brief = true)
    (hi : i < modelIds.length)
    (hfail : ∀ j, j < i → ∃ msg, oracle (modelIds.getD j "") = Attempt.err msg)
    (hok : oracle (modelIds.getD i "") = Attempt.ok t)
    (hlen : 50 < jsLength (ensureFullDoc (stripFences t) spec)) :
    handleGenerate (some spec) oracle =
      GenResponse.success (ensureFullDoc (stripFences t) spec)
        (mkDownloadUrl (ensureFullDoc (stripFences t) spec)) ∧
    (generateLoopState spec oracle).2.2 = modelIds.take (i + 1) := by
  have hgetD : modelIds.getD i "" = modelIds[i] := by
    rw [List.getD_eq_getElem?_getD, List.getElem?_eq_getElem hi]; rfl
  have hsplitIds : modelIds = modelIds.take i ++ modelIds[i] :: modelIds.drop (i + 1) := by
    rw [List.getElem_cons_drop modelIds i hi, List.take_append_drop]
  have hpre : ∀ q ∈ (modelIds.take i).map (fun m => (m, oracle m)),
      ∃ msg, q.2 = Attempt.err msg := by
    intro q hq
    obtain ⟨m, hm, rfl⟩ := List.mem_map.mp hq
    obtain ⟨j, hj, hje⟩ := List.getElem_of_mem hm
    have hjlt : j < i := by
      have := hj; simp at this; omega
    have hjm : modelIds.getD j "" = m := by
      have hjlen : j < modelIds.length := by omega
      rw [List.getD_eq_getElem?_getD, List.getElem?_eq_getElem hjlen]
      rw [← hje, List.getElem_take]
      rfl
    obtain ⟨msg, hmsg⟩ := hfail j hjlt
    exact ⟨msg, by rw [hjm] at hmsg; simpa using hmsg⟩
  have hzip : modelIds.map (fun m => (m, oracle m)) =
      (modelIds.take i).map (fun m => (m, oracle m)) ++
        (modelIds[i], Attempt.ok t) :: (modelIds.drop (i + 1)).map (fun m => (m, oracle m)) := by
    conv_lhs => rw [hsplitIds]
    rw [List.map_append, List.map_cons]
    rw [hgetD] at hok
    rw [hok]
  obtain ⟨e, heq⟩ := fallbackLoop_err_segment spec _ hpre modelIds[i] t
    ((modelIds.drop (i + 1)).map (fun m => (m, oracle m))) "" none [] hlen
  have hstate : generateLoopState spec oracle =
      (ensureFullDoc (stripFences t) spec, e,
       [] ++ ((modelIds.take i).map (fun m => (m, oracle m))).map Prod.fst ++ [modelIds[i]]) := by
    rw [generateLoopState, hzip, heq]
  have htried : ([] : List String) ++
      ((modelIds.take i).map (fun m => (m, oracle m))).map Prod.fst ++ [modelIds[i]] =
      modelIds.take (i + 1) := by
    have hcomp : List.map (Prod.fst ∘ fun m => (m, oracle m)) (List.take i modelIds) =
        List.take i modelIds := by
      rw [show (Prod.fst ∘ fun m => (m, oracle m)) = id from rfl, List.map_id]
    rw [List.take_succ, List.getElem?_eq_getElem hi]
    simp only [List.nil_append, List.map_map, hcomp]
    rfl
  constructor
  · have hne := ne_empty_of_jsLength_gt _ hlen
    simp only [handleGenerate, hbrief, Bool.true_eq_false, if_false, hstate]
    rw [if_neg (by push_neg; exact ⟨hne, by omega⟩)]
  · rw [hstate, htried]

/-- Witness for C1: two failures then a success; the attempted-list is the
first three identifiers and the response is the third model's document. -/
theorem generate_fallback_success_witness :
    handleGenerate (some specBriefOnly) oracleTwoFailThenOk =
      GenResponse.success
        (ensureFullDoc (stripFences
          "<html><body>0123456789012345678901234567890123456789012345</body></html>")
          specBriefOnly)
        (mkDownloadUrl (ensureFullDoc (stripFences
          "<html><body>0123456789012345678901234567890123456789012345</body></html>")
          specBriefOnly)) ∧
    (generateLoopState specBriefOnly oracleTwoFailThenOk).2.2 = modelIds.take 3 :=
  generate_fallback_success specBriefOnly oracleTwoFailThenOk 2
    "<html><body>0123456789012345678901234567890123456789012345</body></html>"
    (by decide) (by decide)
    (fun j hj => by
      interval_cases j
      · exact ⟨"rate limited", by decide⟩
      · exact ⟨"timeout", by decide⟩)
    (by decide) (by decide)

/-- C2: if every candidate model either throws or produces finalized output
shorter than 20 UTF-16 units, the handler answers 502 with the fixed error
message, `tried` equal to the full candidate list in order, and `details` the
message of the last error thrown (`none`, i.e. an absent JSON key, when no
attempt threw). -/
theorem generate_exhaustion_502 (spec : SpecObj) (oracle : String → Attempt)
    (hbrief : truthy spec.brief = true)
    (hall : ∀ m ∈ modelIds, (∃ msg, oracle m = Attempt.err msg) ∨
      (∃ t, oracle m = Attempt.ok t ∧
        jsLength (ensureFullDoc (stripFences t) spec) < 20)) :
    handleGenerate (some spec) oracle =
      GenResponse.badGateway "Model did not return usable HTML"
        (lastErrorMsg (modelIds.map (fun m => (m, oracle m)))) modelIds := by
  have hl : ∀ q ∈ modelIds.map (fun m => (m, oracle m)),
      (∃ msg, q.2 = Attempt.err msg) ∨
      (∃ t, q.2 = Attempt.ok t ∧ jsLength (ensureFullDoc (stripFences t) spec) < 20) := by
    intro q hq
    obtain ⟨m, hm, rfl⟩ := List.mem_map.mp hq
    exact hall m hm
  obtain ⟨htmlF, heq, hlt⟩ :=
    fallbackLoop_all_fail spec _ hl "" none [] (by simp [jsLength])
  have hfst : (modelIds.map (fun m => (m, oracle m))).map Prod.fst = modelIds := by
    rw [List.map_map, show (Prod.fst ∘ fun m => (m, oracle m)) = id from rfl, List.map_id]
  simp only [handleGenerate, hbrief, Bool.true_eq_false, if_false, generateLoopState, heq]
  rw [if_pos (Or.inr hlt)]
  simp only [List.nil_append, hfst]
  rfl

/-- Witness for C2: every model throws; the 502 carries the last message and
the full candidate list. -/
theorem generate_exhaustion_502_witness :
    handleGenerate (some specBriefOnly) (fun _ => Attempt.err "boom") =
      GenResponse.badGateway "Model did not return usable HTML"
        (lastErrorMsg (modelIds.map (fun m => (m, (fun _ => Attempt.err "boom") m))))
        modelIds :=
  generate_exhaustion_502 specBriefOnly (fun _ => Attempt.err "boom") (by decide)
    (fun m _ => Or.inl ⟨"boom", rfl⟩)

/-- C3 counterexample: a non-string but truthy `brief` (the number 5) passes
the `!spec?.brief` check, so the handler does not answer 400 and instead runs
the provider loop. -/
theorem nonstring_brief_passes_validation :
    handleGenerate (some { brief := JsVal.vNum 5 }) (fun _ => Attempt.err "boom") ≠
      GenResponse.badRequest "spec.brief is required" := by
  decide

/-- C3 (amended): whenever the request has no `spec` or its `brief` is falsy
(absent, empty string, null, false or zero), the handler answers 400 with the
fixed body, independently of the provider oracle — no provider call is
attempted; a truthy non-string `brief` passes validation. -/
theorem generate_brief_validation (spec? : Option SpecObj) (oracle : String → Attempt)
    (hbad : spec? = none ∨ ∃ spec, spec? = some spec ∧ truthy spec.brief = false) :
    handleGenerate spec? oracle = GenResponse.badRequest "spec.brief is required" := by
  rcases hbad with rfl | ⟨spec, rfl, hb⟩
  · rfl
  · simp [handleGenerate, hb]

/-- Witness for the amended C3 at an empty-string brief and an oracle that
would succeed if it were ever consulted. -/
theorem generate_brief_validation_witness :
    handleGenerate (some { brief := JsVal.vStr "" })
      (fun _ => Attempt.ok "<html>0123456789012345678901234567890123456789012345</html>") =
      GenResponse.badRequest "spec.brief is required" :=
  generate_brief_validation (some { brief := JsVal.vStr "" }) _
    (Or.inr ⟨_, rfl, by decide⟩)

/-! ### Base64 and UTF-8 lemmas -/

theorem b64_fin : ∀ v : Fin 64, b64Val (b64Char v.val) = some v.val := by decide

theorem b64Val_b64Char (v : Nat) (h : v < 64) : b64Val (b64Char v) = some v :=
  b64_fin ⟨v, h⟩

theorem b64_fin_ne : ∀ v : Fin 64, b64Char v.val ≠ '=' := by decide

theorem b64Char_ne_pad (v : Nat) (h : v < 64) : b64Char v ≠ '=' :=
  b64_fin_ne ⟨v, h⟩

theorem base64_roundtrip_bounded :
    ∀ (n : Nat) (l : List Nat), l.length ≤ n → (∀ b ∈ l, b < 256) →
      base64Decode (base64Encode l) = some l := by
  intro n
  induction n with
  | zero =>
    intro l hl _
    have : l = [] := List.length_eq_zero.mp (Nat.le_zero.mp hl)
    subst this
    rfl
  | succ n ih =>
    intro l hl hb
    rcases l with _ | ⟨a, _ | ⟨b, _ | ⟨c, rest⟩⟩⟩
    · rfl
    · have ha : a < 256 := hb a (by simp)
      have h1 : b64Val (b64Char (a / 4)) = some (a / 4) := b64Val_b64Char _ (by omega)
      have h2 : b64Val (b64Char (a % 4 * 16)) = some (a % 4 * 16) :=
        b64Val_b64Char _ (by omega)
      simp [base64Encode, base64Decode, h1, h2]
      omega
    · have ha : a < 256 := hb a (by simp)
      have hbb : b < 256 := hb b (by simp)
      have h1 : b64Val (b64Char (a / 4)) = some (a / 4) := b64Val_b64Char _ (by omega)
      have h2 : b64Val (b64Char (a % 4 * 16 + b / 16)) = some (a % 4 * 16 + b / 16) :=
        b64Val_b64Char _ (by omega)
      have h3 : b64Val (b64Char (b % 16 * 4)) = some (b % 16 * 4) :=
        b64Val_b64Char _ (by omega)
      have hc3 : b64Char (b % 16 * 4) ≠ '=' := b64Char_ne_pad _ (by omega)
      simp [base64Encode, base64Decode, h1, h2, h3, hc3]
      omega
    · have ha : a < 256 := hb a (by simp)
      have hbb : b < 256 := hb b (by simp)
      have hcc : c < 256 := hb c (by simp)
      have h1 : b64Val (b64Char (a / 4)) = some (a / 4) := b64Val_b64Char _ (by omega)
      have h2 : b64Val (b64Char (a % 4 * 16 + b / 16)) = some (a % 4 * 16 + b / 16) :=
        b64Val_b64Char _ (by omega)
      have h3 : b64Val (b64Char (b % 16 * 4 + c / 64)) = some (b % 16 * 4 + c / 64) :=
        b64Val_b64Char _ (by omega)
      have h4 : b64Val (b64Char (c % 64)) = some (c % 64) := b64Val_b64Char _ (by omega)
      have hc3 : b64Char (b % 16 * 4 + c / 64) ≠ '=' := b64Char_ne_pad _ (by omega)
      have hc4 : b64Char (c % 64) ≠ '=' := b64Char_ne_pad _ (by omega)
      have hrest := ih rest (by simp at hl; omega)
        (fun x hx => hb x (by simp [hx]))
      simp [base64Encode, base64Decode, h1, h2, h3, h4, hc3, hc4, hrest]
      refine ⟨by omega, by omega, by omega⟩

theorem char_toNat_lt (c : Char) : c.toNat < 1114112 := by
  have h := c.valid
  simp only [UInt32.isValidChar, Nat.isValidChar] at h
  have he : c.toNat = c.val.toNat := rfl
  rcases h with h | ⟨h1, h2⟩ <;> omega

theorem utf8Char_bytes_lt (c : Char) : ∀ b ∈ utf8Char c, b < 256 := by
  intro b hb
  have hc := char_toNat_lt c
  unfold utf8Char at hb
  split at hb
  · simp at hb; omega
  · split at hb
    · simp at hb
      rcases hb with rfl | rfl <;> omega
    · split at hb
      · simp at hb
        rcases hb with rfl | rfl | rfl <;> omega
      · simp at hb
        rcases hb with rfl | rfl | rfl | rfl <;> omega

theorem utf8Bytes_lt (s : String) : ∀ b ∈ utf8Bytes s, b < 256 := by
  intro b hb
  rw [utf8Bytes, List.mem_flatMap] at hb
  obtain ⟨c, _, hbc⟩ := hb
  exact utf8Char_bytes_lt c b hbc

/-- C9: every successful 200 response carries a `downloadUrl` equal to
`data:text/html;base64,` followed by the base64 encoding of the UTF-8 bytes of
the returned `html`, and base64-decoding that payload yields exactly those
bytes back. -/
theorem success_downloadUrl_roundtrip (spec? : Option SpecObj) (oracle : String → Attempt)
    (html url : String)
    (h : handleGenerate spec? oracle = GenResponse.success html url) :
    url = "data:text/html;base64," ++ String.mk (base64Encode (utf8Bytes html)) ∧
    base64Decode (base64Encode (utf8Bytes html)) = some (utf8Bytes html) := by
  constructor
  · rcases spec? with _ | spec
    · simp [handleGenerate] at h
    · by_cases hb : truthy spec.brief = false
      · simp [handleGenerate, hb] at h
      · simp only [handleGenerate, if_neg hb] at h
        split at h
        · simp at h
        · obtain ⟨h1, h2⟩ := GenResponse.success.inj h
          rw [← h2, ← h1]
          rfl
  · exact base64_roundtrip_bounded (utf8Bytes html).length _ le_rfl (utf8Bytes_lt html)

/-- Witness for C9: a short full document that every model returns; the
handler succeeds and the data URL round-trips. -/
theorem success_downloadUrl_roundtrip_witness :
    mkDownloadUrl "<html>123456789012345" =
      "data:text/html;base64," ++
        String.mk (base64Encode (utf8Bytes "<html>123456789012345")) ∧
    base64Decode (base64Encode (utf8Bytes "<html>123456789012345")) =
      some (utf8Bytes "<html>123456789012345") :=
  success_downloadUrl_roundtrip (some specBriefOnly)
    (fun _ => Attempt.ok "<html>123456789012345")
    "<html>123456789012345" (mkDownloadUrl "<html>123456789012345") (by decide)

theorem jsLength_append (a b : String) : jsLength (a ++ b) = jsLength a + jsLength b := by
  simp [jsLength, String.data_append]

/-! ### Claim theorems: provider adapter -/

set_option maxRecDepth 4096 in
theorem empty_attempt_success (spec : SpecObj) (hb : truthy spec.brief = true) :
    isSuccessResponse (handleGenerate (some spec) (fun _ => Attempt.ok "")) = true := by
  have hwrap : ensureFullDoc (stripFences "") spec =
      shellHead ++ escapeHtmlAttr (titleString spec) ++ shellMid ++ "" ++ shellTail := by
    rw [show stripFences "" = "" from rfl]
    exact ensureFullDoc_wrap "" spec (by decide)
  have hgt : 50 < jsLength (ensureFullDoc (stripFences "") spec) := by
    rw [hwrap, jsLength_append, jsLength_append, jsLength_append, jsLength_append]
    have hh : 50 < jsLength shellHead := by decide
    omega
  have hne : ensureFullDoc (stripFences "") spec ≠ "" :=
    ne_empty_of_jsLength_gt _ hgt
  have hloop : generateLoopState spec (fun _ => Attempt.ok "") =
      (ensureFullDoc (stripFences "") spec, none, ["x-ai/grok-code-fast-1"]) := by
    unfold generateLoopState
    rw [show modelIds.map (fun m => (m, (fun _ => Attempt.ok "") m)) =
        ("x-ai/grok-code-fast-1", Attempt.ok "") ::
          [("openai/gpt-4o", Attempt.ok ""),
           ("anthropic/claude-3.5-sonnet", Attempt.ok ""),
           ("deepseek/deepseek-chat", Attempt.ok "")] from rfl]
    rw [show fallbackLoop spec (("x-ai/grok-code-fast-1", Attempt.ok "") ::
          [("openai/gpt-4o", Attempt.ok ""),
           ("anthropic/claude-3.5-sonnet", Attempt.ok ""),
           ("deepseek/deepseek-chat", Attempt.ok "")]) "" none [] =
        (if ensureFullDoc (stripFences "") spec ≠ "" ∧
            50 < jsLength (ensureFullDoc (stripFences "") spec)
         then (ensureFullDoc (stripFences "") spec, none, [] ++ ["x-ai/grok-code-fast-1"])
         else fallbackLoop spec
           [("openai/gpt-4o", Attempt.ok ""),
            ("anthropic/claude-3.5-sonnet", Attempt.ok ""),
            ("deepseek/deepseek-chat", Attempt.ok "")]
           (ensureFullDoc (stripFences "") spec) none
           ([] ++ ["x-ai/grok-code-fast-1"])) from rfl]
    rw [if_pos ⟨hne, hgt⟩]
    rfl
  have hcond : ¬ (ensureFullDoc (stripFences "") spec = "" ∨
      jsLength (ensureFullDoc (stripFences "") spec) < 20) := by
    push_neg
    exact ⟨hne, by omega⟩
  simp only [handleGenerate, hb, Bool.true_eq_false, if_false, hloop]
  rw [if_neg hcond]
  rfl

/-- C4 counterexample: a 2xx OpenRouter response with missing (or empty)
content makes `callOpenRouter` return `Except.ok ""` instead of raising, and
the orchestrator then accepts that empty attempt as a 200 success (the empty
text gets wrapped into a full shell longer than 50 characters). -/
theorem adapter_accepts_empty_content :
    callOpenRouter { ok := true, bodyText := "", content := none } = Except.ok "" ∧
    callOpenRouter { ok := true, bodyText := "", content := some "" } = Except.ok "" ∧
    isSuccessResponse (handleGenerate (some specBriefOnly) (fun _ => Attempt.ok "")) =
      true :=
  ⟨rfl, rfl, empty_attempt_success specBriefOnly (by decide)⟩

/-- C4 (amended): the adapter raises an error exactly on a non-2xx HTTP status;
on a 2xx status it returns the extracted content with empty content mapped to
the empty string, never raising, and the `server.js` orchestrator wraps such an
empty text into a full shell and accepts it as success; the part_003 variant
instead rejects extracted text shorter than 20 trimmed characters inside its
loop, recording "Empty or too short model output" and moving on; its extractor
tries the known text-accessor paths in order and falls back to stringifying. -/
theorem adapter_failfast_amended :
    (∀ resp : FetchResponse, resp.ok = false →
      callOpenRouter resp = Except.error ("OpenRouter error: " ++ resp.bodyText)) ∧
    (∀ resp : FetchResponse, resp.ok = true →
      callOpenRouter resp = Except.ok (resp.content.getD "")) ∧
    (∀ spec : SpecObj, truthy spec.brief = true →
      isSuccessResponse (handleGenerate (some spec) (fun _ => Attempt.ok "")) = true) ∧
    (∀ (spec : SpecObj) (m text : String) (rest : List (String × Attempt))
        (html : String) (e : Option String) (tried : List String),
      text = "" ∨ jsLength (jsTrimS text) < 20 →
      fallbackLoopH spec ((m, Attempt.ok text) :: rest) html e tried =
        fallbackLoopH spec rest html (some "Empty or too short model output")
          (tried ++ [m])) ∧
    (∀ (res : ModelResult) (t : String), res.response.bind ModelResponse.textFn = some t →
      extractText (some res) = t) ∧
    (∀ (res : ModelResult) (t : String),
      res.response.bind ModelResponse.textFn = none →
      res.response.bind ModelResponse.output_text = some t →
      extractText (some res) = t) ∧
    (∀ (res : ModelResult) (t : String), res.response = none → res.output_text = some t →
      extractText (some res) = t) ∧
    (∀ st : String,
      extractText (some { response := none, output_text := none, output := none,
                          selfString := none, stringified := st }) =
        st.take 10000) := by
  refine ⟨?_, ?_, fun spec hb => empty_attempt_success spec hb, ?_, ?_, ?_, ?_, ?_⟩
  · intro resp h
    simp [callOpenRouter, h]
  · intro resp h
    simp [callOpenRouter, h]
  · intro spec m text rest html e tried hshort
    rw [show fallbackLoopH spec ((m, Attempt.ok text) :: rest) html e tried =
        (if text = "" ∨ jsLength (jsTrimS text) < 20 then
          fallbackLoopH spec rest html (some "Empty or too short model output")
            (tried ++ [m])
         else
          if ensureFullDocH (stripFencesH text) spec ≠ "" ∧
              50 < jsLength (ensureFullDocH (stripFencesH text) spec)
          then (ensureFullDocH (stripFencesH text) spec, e, tried ++ [m])
          else fallbackLoopH spec rest (ensureFullDocH (stripFencesH text) spec) e
            (tried ++ [m])) from rfl]
    rw [if_pos hshort]
  · intro res t h
    simp [extractText, h]
  · intro res t h1 h2
    simp [extractText, h1, h2]
  · intro res t h1 h2
    simp [extractText, h1, h2]
  · intro st
    rfl

/-- Witness for the amended C4 at a failing concrete response. -/
theorem adapter_failfast_amended_witness :
    callOpenRouter { ok := false, bodyText := "quota exceeded", content := none } =
      Except.error "OpenRouter error: quota exceeded" :=
  adapter_failfast_amended.1 { ok := false, bodyText := "quota exceeded", content := none }
    rfl
